import Mathlib

/-!
Shallow embedding of the PsA Logbook core (local-first event store plus the
Google Drive backup/restore engine) and proofs about its specification.

Sources embedded:
  * `src/lib/events.ts`  — record store CRUD, filtering/sorting, the JSON
    export envelope, and the last-writer-wins import merge.
  * `src/lib/drive.ts`   — session-token handshake, idempotent folder/file
    provisioning, and the backup/restore orchestrator.

Modelling conventions, chosen to mirror the JavaScript semantics:
  * JS numbers used as epoch-millisecond timestamps and pain scores become
    `Int`.
  * An optional object property (absent or `undefined`) becomes `Option`;
    `x ?? y` becomes `Option.getD` / `<|>`.  `endAt` is declared
    `number | null | undefined` so it becomes `Option (Option Int)`: the
    outer layer is key presence (spread semantics), the inner layer is
    `null`.
  * A JS truthiness test on a string (`if (s)`, `if (!incoming.id)`)
    accepts exactly the present non-empty strings; `strTruthy` models it.
    The record `id` is a plain `String` and the empty string stands for
    both the absent and the empty id, which the code treats identically.
  * The JS comparison `a > b` where `b` may be `undefined` is false
    whenever `b` is absent (NaN propagation); `incomingWins` models this.
  * The Dexie table `db.events` (declared in `src/lib/db.ts`) is a keyed
    collection; it is embedded as a `List EventRecord` with `get`/`add`/
    `put`/`delete` by primary key `id`.  The metadata table becomes the
    `Meta` structure with one field per key of its fixed enumeration.
  * `Array.prototype.sort(cmp)` returns some ordering of the array that is
    sorted with respect to `cmp`; it is embedded as `List.mergeSort` with
    the boolean order induced by the comparator.
  * `Date.now()` becomes an explicit `now : Int` argument.
-/

deriving instance DecidableEq for Except

namespace PsaCore

/-- `DAY_MS` from `events.ts`: `24 * 60 * 60 * 1000`. -/
def DAY_MS : Int := 24 * 60 * 60 * 1000

/-- JS truthiness of an optional string: present and non-empty. -/
def strTruthy (o : Option String) : Bool :=
  match o with
  | none => false
  | some s => !(s == "")

/-- `TimeframeKey` from `lookups.ts`: `'all' | 'year' | 'm6' | 'month' | 'week'`. -/
inductive TimeframeKey where
  | all | year | m6 | month | week
deriving DecidableEq, Repr

/-- `EventRecord` (declared in `db.ts`, shaped by `EventFormValues` in
`events.ts` plus `id`/`createdAt`/`updatedAt`).  Optional properties are
`Option`; `createdAt`/`updatedAt` are `Option` because the import path
(`incoming.updatedAt ?? incoming.createdAt ?? 0`) handles records parsed
from JSON in which they are absent. -/
structure EventRecord where
  id : String
  startAt : Int
  endAt : Option (Option Int)
  pain : Int
  region : String
  regionKey : Option String
  jointKey : Option String
  symptomKey : Option String
  symptomCustom : Option String
  triggerKey : Option String
  triggerCustom : Option String
  actionKey : Option String
  actionCustom : Option String
  side : Option String
  drill1Key : Option String
  drill1Custom : Option String
  drill2Key : Option String
  drill2Custom : Option String
  notes : String
  createdAt : Option Int
  updatedAt : Option Int
deriving DecidableEq, Repr

/-- `EventFilter` from `events.ts`. -/
structure EventFilter where
  days : Option Int
  regionKey : Option String
  jointKey : Option String
  minPain : Option Int
deriving DecidableEq, Repr

/-- `ExportOptions` from `events.ts`. -/
structure ExportOptions where
  timeframe : TimeframeKey
  regionKey : Option String
  jointKey : Option String
deriving DecidableEq, Repr

/-- `ExportedEvents` from `events.ts`, as it exists after an unchecked
`JSON.parse` cast: `schemaVersion` is an arbitrary number and `events` may
be missing or not an array (`none`). -/
structure ExportPayload where
  schemaVersion : Int
  exportedAt : Int
  options : ExportOptions
  events : Option (List EventRecord)
deriving DecidableEq, Repr

/-- `Partial<EventFormValues>` from `events.ts`: every form field optional. -/
structure UpdatePatch where
  startAt : Option Int
  endAt : Option (Option Int)
  pain : Option Int
  region : Option String
  regionKey : Option String
  jointKey : Option String
  symptomKey : Option String
  symptomCustom : Option String
  triggerKey : Option String
  triggerCustom : Option String
  actionKey : Option String
  actionCustom : Option String
  side : Option String
  drill1Key : Option String
  drill1Custom : Option String
  drill2Key : Option String
  drill2Custom : Option String
  notes : Option String
deriving DecidableEq, Repr

/-- The patch with no field present (`{}`). -/
def emptyPatch : UpdatePatch :=
  ⟨none, none, none, none, none, none, none, none, none,
   none, none, none, none, none, none, none, none, none⟩

/-- The event table: `db.events` as a list of records. -/
abbrev Store := List EventRecord

/-- `db.events.get(id)`: lookup by primary key. -/
def getEvent (s : Store) (id : String) : Option EventRecord :=
  s.find? (fun e => e.id == id)

/-- `db.events.add(record)`: insert a record whose key is not present. -/
def addEvent (s : Store) (r : EventRecord) : Store :=
  s ++ [r]

/-- `db.events.put(record)`: replace the record with the same key, or
append when the key is new. -/
def putEvent (s : Store) (r : EventRecord) : Store :=
  if s.any (fun e => e.id == r.id) then
    s.map (fun e => if e.id == r.id then r else e)
  else
    s ++ [r]

/-- Errors raised by the store layer (`throw new Error('Event not found')`). -/
inductive StoreErr where
  | notFound
deriving DecidableEq, Repr

/-- The record constructed by `updateEvent`:
`{ ...current, ...values, side: values.side ?? current.side ?? '',
   drill1Key: values.drill1Key ?? current.drill1Key, ...,
   updatedAt }`.
Spread semantics: a field present in `values` overrides, an absent field
keeps `current`'s value. -/
def applyPatch (now : Int) (current : EventRecord) (v : UpdatePatch) : EventRecord :=
  { id := current.id
    startAt := v.startAt.getD current.startAt
    endAt := v.endAt <|> current.endAt
    pain := v.pain.getD current.pain
    region := v.region.getD current.region
    regionKey := v.regionKey <|> current.regionKey
    jointKey := v.jointKey <|> current.jointKey
    symptomKey := v.symptomKey <|> current.symptomKey
    symptomCustom := v.symptomCustom <|> current.symptomCustom
    triggerKey := v.triggerKey <|> current.triggerKey
    triggerCustom := v.triggerCustom <|> current.triggerCustom
    actionKey := v.actionKey <|> current.actionKey
    actionCustom := v.actionCustom <|> current.actionCustom
    side := some ((v.side <|> current.side).getD "")
    drill1Key := v.drill1Key <|> current.drill1Key
    drill1Custom := v.drill1Custom <|> current.drill1Custom
    drill2Key := v.drill2Key <|> current.drill2Key
    drill2Custom := v.drill2Custom <|> current.drill2Custom
    notes := v.notes.getD current.notes
    createdAt := current.createdAt
    updatedAt := some now }

/-- `updateEvent(id, values)` from `events.ts`: throws `NotFound` when the
id is absent, otherwise shallow-merges the patch, stamps `updatedAt`, and
persists with `put`.  The successful result carries the new store and the
returned record. -/
def updateEvent (now : Int) (s : Store) (id : String) (v : UpdatePatch) :
    Except StoreErr (Store × EventRecord) :=
  match getEvent s id with
  | none => .error .notFound
  | some current =>
      let updated := applyPatch now current v
      .ok (putEvent s updated, updated)

/-- One truthy-key equality test of the filters:
`if (key && event.key !== key) return false`. -/
def keyOk (fk ek : Option String) : Bool :=
  if strTruthy fk then ek == fk else true

/-- The trailing-window test of `matchesFilter`:
`if (typeof days === 'number' && days > 0) { ... if (event.startAt < threshold) return false }`. -/
def daysOk (now : Int) (e : EventRecord) (o : Option Int) : Bool :=
  match o with
  | some d => if 0 < d then now - d * DAY_MS ≤ e.startAt else true
  | none => true

/-- `matchesFilter(event, filters)` from `events.ts`, as the conjunction of
its early-return tests: pain at least `minPain` (default 0), the trailing
window only when `days` is a number greater than 0, and truthy-key equality
tests for `regionKey`/`jointKey`. -/
def matchesFilter (now : Int) (e : EventRecord) (f : EventFilter) : Bool :=
  (f.minPain.getD 0 ≤ e.pain)
    && daysOk now e f.days
    && keyOk f.regionKey e.regionKey
    && keyOk f.jointKey e.jointKey

/-- The comparator `(a, b) => b.startAt - a.startAt` (descending). -/
def descCmp (a b : EventRecord) : Bool := b.startAt ≤ a.startAt

/-- The comparator `(a, b) => a.startAt - b.startAt` (ascending). -/
def ascCmp (a b : EventRecord) : Bool := a.startAt ≤ b.startAt

/-- `listEvents(filters)` from `events.ts`: filter all events, then sort by
`startAt` descending. -/
def listEvents (now : Int) (s : Store) (f : EventFilter) : List EventRecord :=
  (s.filter (fun e => matchesFilter now e f)).mergeSort descCmp

/-- `getTimeframeRange(timeframe)` from `events.ts`. -/
def getTimeframeRange (now : Int) (tf : TimeframeKey) : Option Int × Int :=
  match tf with
  | .all => (none, now)
  | .year => (some (now - 365 * DAY_MS), now)
  | .m6 => (some (now - 183 * DAY_MS), now)
  | .month => (some (now - 30 * DAY_MS), now)
  | .week => (some (now - 7 * DAY_MS), now)

/-- The filter predicate of `filterByExportOptions`: inside the timeframe
range (lower bound when present, upper bound always) and truthy-key
equality for `regionKey`/`jointKey`. -/
def exportMatches (now : Int) (e : EventRecord) (opts : ExportOptions) : Bool :=
  (match (getTimeframeRange now opts.timeframe).1 with
   | some st => st ≤ e.startAt
   | none => true)
    && (e.startAt ≤ (getTimeframeRange now opts.timeframe).2)
    && keyOk opts.regionKey e.regionKey
    && keyOk opts.jointKey e.jointKey

/-- `filterByExportOptions(options)` from `events.ts`: filter, then sort by
`startAt` ascending. -/
def filterByExportOptions (now : Int) (s : Store) (opts : ExportOptions) :
    List EventRecord :=
  (s.filter (fun e => exportMatches now e opts)).mergeSort ascCmp

/-- `exportAllEventsAsJson()` from `events.ts`. -/
def exportAllEventsAsJson (now : Int) (s : Store) : ExportPayload :=
  { schemaVersion := 1
    exportedAt := now
    options := ⟨.all, none, none⟩
    events := some s }

/-- The incoming timestamp of the merge:
`incoming.updatedAt ?? incoming.createdAt ?? 0`. -/
def tsOf (r : EventRecord) : Int :=
  (r.updatedAt <|> r.createdAt).getD 0

/-- The merge guard `(incoming.updatedAt ?? incoming.createdAt ?? 0) >
existing.updatedAt`.  When the stored `updatedAt` is absent the JS
comparison is against `undefined` and is false. -/
def incomingWins (r e : EventRecord) : Bool :=
  match e.updatedAt with
  | some t1 => tsOf r > t1
  | none => false

/-- The overwriting `put` of the merge:
`{ ...existing, ...incoming, updatedAt: incoming.updatedAt ?? Date.now() }`.
Fields present in the incoming record override; absent optional fields
keep the stored values. -/
def mergeRecords (now : Int) (e r : EventRecord) : EventRecord :=
  { id := r.id
    startAt := r.startAt
    endAt := r.endAt <|> e.endAt
    pain := r.pain
    region := r.region
    regionKey := r.regionKey <|> e.regionKey
    jointKey := r.jointKey <|> e.jointKey
    symptomKey := r.symptomKey <|> e.symptomKey
    symptomCustom := r.symptomCustom <|> e.symptomCustom
    triggerKey := r.triggerKey <|> e.triggerKey
    triggerCustom := r.triggerCustom <|> e.triggerCustom
    actionKey := r.actionKey <|> e.actionKey
    actionCustom := r.actionCustom <|> e.actionCustom
    side := r.side <|> e.side
    drill1Key := r.drill1Key <|> e.drill1Key
    drill1Custom := r.drill1Custom <|> e.drill1Custom
    drill2Key := r.drill2Key <|> e.drill2Key
    drill2Custom := r.drill2Custom <|> e.drill2Custom
    notes := r.notes
    createdAt := r.createdAt <|> e.createdAt
    updatedAt := some (r.updatedAt.getD now) }

/-- One iteration of the import loop of `importEventsFromJson`: skip falsy
ids, insert unseen records verbatim, overwrite by last-writer-wins. -/
def importStep (now : Int) (acc : Store × Nat) (r : EventRecord) : Store × Nat :=
  if r.id == "" then acc
  else
    match getEvent acc.1 r.id with
    | none => (addEvent acc.1 r, acc.2 + 1)
    | some e =>
        if incomingWins r e then (putEvent acc.1 (mergeRecords now e r), acc.2 + 1)
        else acc

/-- The whole import loop over a batch, starting from an untouched store
and a zero counter. -/
def importList (now : Int) (s : Store) (evs : List EventRecord) : Store × Nat :=
  evs.foldl (importStep now) (s, 0)

/-- Errors raised by `importEventsFromJson`
(`throw new Error('Invalid import payload')`). -/
inductive ImportErr where
  | invalidFormat
deriving DecidableEq, Repr

/-- `importEventsFromJson(payload)` from `events.ts`: reject when `events`
is not an array, otherwise run the merge loop inside one transaction and
return the new store with the imported count. -/
def importEventsFromJson (now : Int) (p : ExportPayload) (s : Store) :
    Except ImportErr (Store × Nat) :=
  match p.events with
  | none => .error .invalidFormat
  | some evs => .ok (importList now s evs)

/-! ## Drive layer (`src/lib/drive.ts`)

The remote side is the Google Drive v3 surface the code consumes: list by
query, create, read metadata (parents), re-parent, read content.  It is
embedded as an explicit `DriveState` whose transitions follow the meaning
of the exact queries the code issues.  Serialization is abstracted: a
file's body is the `ExportPayload` it parses to (`none` when unparseable).
Authentication and the offline check of `fetchWithAuth` are modelled
separately by the token functions below; the provisioning and restore
functions describe the behaviour of the successfully-transported calls. -/

/-- One remote Drive resource: folder or JSON file. -/
structure DriveFile where
  id : String
  name : String
  isFolder : Bool
  parents : List String
  trashed : Bool
  content : Option ExportPayload
deriving DecidableEq, Repr

/-- The remote Drive: its resources plus a fresh-id counter. -/
structure DriveState where
  files : List DriveFile
  nextId : Nat
deriving DecidableEq, Repr

/-- The metadata table of `db.ts`, keyed by its fixed enumeration
(`driveFolderId`, `driveFileId`, `lastBackupAt`, `lastRestoreAt`); absence
of a key is `none`. -/
structure Meta where
  driveFolderId : Option String
  driveFileId : Option String
  lastBackupAt : Option Int
  lastRestoreAt : Option Int
deriving DecidableEq, Repr

/-- The state a backup/restore call runs against: the local event table,
the metadata table, and the remote Drive. -/
structure SyncState where
  events : Store
  meta : Meta
  drive : DriveState
deriving DecidableEq, Repr

/-- Classified remote failures surfaced by the Drive layer. -/
inductive DriveErr where
  | remoteRequestFailed
  | invalidFormat
deriving DecidableEq, Repr

/-- `DRIVE_FOLDER_NAME` from `config.ts` (README: the visible folder is
`PsA-Logbook`). -/
def DRIVE_FOLDER_NAME : String := "PsA-Logbook"

/-- `DRIVE_FILE_NAME` from `config.ts` (README: `psa-logbook-data.json`). -/
def DRIVE_FILE_NAME : String := "psa-logbook-data.json"

/-- A fresh id handed out by Drive on creation. -/
def freshId (d : DriveState) : String :=
  "drive-" ++ toString d.nextId

/-- The query of `ensureFolder`:
`name='PsA-Logbook' and mimeType=folder and trashed=false and 'root' in parents`,
answered in Drive's listing order. -/
def folderQuery (d : DriveState) : List DriveFile :=
  d.files.filter (fun f =>
    f.name == DRIVE_FOLDER_NAME && f.isFolder && !f.trashed && f.parents.contains "root")

/-- The query of `ensureFile`:
`name='psa-logbook-data.json' and '<folderId>' in parents and trashed=false`. -/
def fileQuery (d : DriveState) (folderId : String) : List DriveFile :=
  d.files.filter (fun f =>
    f.name == DRIVE_FILE_NAME && f.parents.contains folderId && !f.trashed)

/-- The `POST /files` call of `ensureFolder`: create the named folder under
root and return its id. -/
def createFolderRemote (d : DriveState) : String × DriveState :=
  (freshId d,
   { files := d.files ++ [⟨freshId d, DRIVE_FOLDER_NAME, true, ["root"], false, none⟩]
     nextId := d.nextId + 1 })

/-- The multipart upload of `ensureFile`: create the named JSON file inside
the folder with the full current export as its initial content. -/
def createFileRemote (d : DriveState) (folderId : String) (body : ExportPayload) :
    String × DriveState :=
  (freshId d,
   { files := d.files ++ [⟨freshId d, DRIVE_FILE_NAME, false, [folderId], false, some body⟩]
     nextId := d.nextId + 1 })

/-- `GET /files/<id>`: find a resource by id. -/
def findFile (d : DriveState) (id : String) : Option DriveFile :=
  d.files.find? (fun f => f.id == id)

/-- `ensureFolder()` from `drive.ts`: cached metadata id (truthy), else
search by name, else create; cache whichever id was obtained.  The last
component counts the creation calls issued (0 or 1). -/
def ensureFolder (st : SyncState) : String × SyncState × Nat :=
  if strTruthy st.meta.driveFolderId then
    (st.meta.driveFolderId.getD "", st, 0)
  else
    match (folderQuery st.drive).head? with
    | some f =>
        (f.id, { st with meta := { st.meta with driveFolderId := some f.id } }, 0)
    | none =>
        let (id, d) := createFolderRemote st.drive
        (id, { st with meta := { st.meta with driveFolderId := some id }, drive := d }, 1)

/-- `ensureFile(folderId)` from `drive.ts`: cached metadata id (truthy),
else search by name inside the folder, else create with the current full
export as initial content; cache the id. -/
def ensureFile (now : Int) (folderId : String) (st : SyncState) : String × SyncState :=
  if strTruthy st.meta.driveFileId then
    (st.meta.driveFileId.getD "", st)
  else
    match (fileQuery st.drive folderId).head? with
    | some f =>
        (f.id, { st with meta := { st.meta with driveFileId := some f.id } })
    | none =>
        let (id, d) := createFileRemote st.drive folderId (exportAllEventsAsJson now st.events)
        (id, { st with meta := { st.meta with driveFileId := some id }, drive := d })

/-- `ensureFileInFolder(fileId, folderId)` from `drive.ts`: read the
file's parents; if the folder is missing, re-parent (add the folder,
remove all recorded parents).  A lookup miss is a non-success response. -/
def ensureFileInFolder (fileId folderId : String) (st : SyncState) :
    Except DriveErr SyncState :=
  match findFile st.drive fileId with
  | none => .error .remoteRequestFailed
  | some f =>
      if f.parents.contains folderId then .ok st
      else
        .ok { st with
                drive := { st.drive with
                  files := st.drive.files.map (fun g =>
                    if g.id == fileId then { g with parents := [folderId] } else g) } }

/-- `restoreFromDrive()` from `drive.ts`: provision folder and file,
self-heal the file's location, download and parse the document, merge it
with `importEventsFromJson`, stamp `lastRestoreAt = now`, and return
the import count. -/
def restoreFromDrive (now : Int) (st : SyncState) :
    Except DriveErr (SyncState × Nat) :=
  match ensureFolder st with
  | (folderId, st1, _) =>
  match ensureFile now folderId st1 with
  | (fileId, st2) =>
  match ensureFileInFolder fileId folderId st2 with
  | .error e => .error e
  | .ok st3 =>
      match findFile st3.drive fileId with
      | none => .error .remoteRequestFailed
      | some f =>
          match f.content with
          | none => .error .invalidFormat
          | some payload =>
              match importEventsFromJson now payload st3.events with
              | .error _ => .error .invalidFormat
              | .ok (evs, n) =>
                  .ok ({ st3 with
                          events := evs
                          meta := { st3.meta with lastRestoreAt := some now } }, n)

/-! ## Session layer (`drive.ts` token handling) -/

/-- The provider's `TokenResponse`. -/
structure TokenResponse where
  error : Option String
  error_description : Option String
  access_token : Option String
deriving DecidableEq, Repr

/-- Session failures: explicit denial versus any other handshake failure
carrying the provider's message. -/
inductive AuthErr where
  | accessDenied
  | authFailed (msg : String)
deriving DecidableEq, Repr

/-- `requestAccessToken()` from `drive.ts`, as a function of the provider's
callback response and the module-level token cache: an error response
rejects (denial specially), a missing token rejects, and only a granted
token is cached.  The returned pair is (result, new cache). -/
def requestAccessToken (resp : TokenResponse) (tok : Option String) :
    Except AuthErr String × Option String :=
  if strTruthy resp.error then
    if resp.error == some "access_denied" then (.error .accessDenied, tok)
    else (.error (.authFailed (resp.error_description.getD "Google authorization failed.")), tok)
  else if strTruthy resp.access_token then
    (.ok (resp.access_token.getD ""), resp.access_token)
  else
    (.error (.authFailed "Google did not return an access token."), tok)

/-- `ensureAccessToken()` from `drive.ts`: return the cached token when
truthy, otherwise run the interactive handshake. -/
def ensureAccessToken (resp : TokenResponse) (tok : Option String) :
    Except AuthErr String × Option String :=
  if strTruthy tok then (.ok (tok.getD ""), tok)
  else requestAccessToken resp tok

/-! ## Concrete records and states used by the closed theorems below -/

/-- A record template: all optional fields absent, all required fields at
their simplest values. -/
def baseRec : EventRecord :=
  { id := ""
    startAt := 0
    endAt := none
    pain := 0
    region := ""
    regionKey := none
    jointKey := none
    symptomKey := none
    symptomCustom := none
    triggerKey := none
    triggerCustom := none
    actionKey := none
    actionCustom := none
    side := none
    drill1Key := none
    drill1Custom := none
    drill2Key := none
    drill2Custom := none
    notes := ""
    createdAt := none
    updatedAt := none }

/-- An envelope whose `schemaVersion` is `2` but whose `events` array is
well formed. -/
def c1Payload : ExportPayload :=
  { schemaVersion := 2, exportedAt := 0, options := ⟨.all, none, none⟩, events := some [] }

/-- An envelope with no `events` array at all. -/
def c1NoEvents : ExportPayload :=
  { schemaVersion := 1, exportedAt := 0, options := ⟨.all, none, none⟩, events := none }

/-- A stored record that carries a `regionKey`. -/
def c2Existing : EventRecord :=
  { baseRec with id := "a", regionKey := some "hand", createdAt := some 0, updatedAt := some 0 }

/-- An incoming record with the same id, a strictly newer `updatedAt`, and
no `regionKey` of its own. -/
def c2Incoming : EventRecord :=
  { baseRec with id := "a", createdAt := some 10, updatedAt := some 10 }

/-- A singleton envelope carrying `c2Incoming`. -/
def c2Payload : ExportPayload :=
  { schemaVersion := 1, exportedAt := 0, options := ⟨.all, none, none⟩, events := some [c2Incoming] }

/-- A stored record with `updatedAt = 0`. -/
def c3Existing : EventRecord :=
  { baseRec with id := "a", createdAt := some 0, updatedAt := some 0 }

/-- An incoming record with no `updatedAt` and a `createdAt` ahead of
the import times used below. -/
def c3Incoming : EventRecord :=
  { baseRec with id := "a", createdAt := some 100, updatedAt := none }

/-- A singleton envelope carrying `c3Incoming`. -/
def c3Payload : ExportPayload :=
  { schemaVersion := 1, exportedAt := 0, options := ⟨.all, none, none⟩, events := some [c3Incoming] }

/-- A record whose updatedAt is present, for the idempotence witness. -/
def c3GoodIncoming : EventRecord :=
  { baseRec with id := "b", createdAt := some 5, updatedAt := some 5 }

/-- A well-behaved envelope (every record carries `updatedAt`). -/
def c3GoodPayload : ExportPayload :=
  { schemaVersion := 1, exportedAt := 0, options := ⟨.all, none, none⟩, events := some [c3GoodIncoming] }

/-- A state with provisioning already cached and the remote document
present, well-parented, and holding a valid empty envelope. -/
def c4State : SyncState :=
  { events := []
    meta := ⟨some "F", some "X", none, none⟩
    drive := ⟨[⟨"X", DRIVE_FILE_NAME, false, ["F"], false,
                some ⟨1, 0, ⟨.all, none, none⟩, some []⟩⟩], 0⟩ }

/-- The state `restoreFromDrive 7 c4State` produces. -/
def c4StateAfter : SyncState :=
  { events := []
    meta := ⟨some "F", some "X", none, some 7⟩
    drive := ⟨[⟨"X", DRIVE_FILE_NAME, false, ["F"], false,
                some ⟨1, 0, ⟨.all, none, none⟩, some []⟩⟩], 0⟩ }

/-- A stored record whose `side` is absent. -/
def c7Rec : EventRecord :=
  { baseRec with id := "a", createdAt := some 0, updatedAt := some 0 }

/-- An envelope that inserts `c7Rec` verbatim. -/
def c7Payload : ExportPayload :=
  { schemaVersion := 1, exportedAt := 0, options := ⟨.all, none, none⟩, events := some [c7Rec] }

/-- A stored record whose `side` is present, for the update witness. -/
def c7SideRec : EventRecord :=
  { baseRec with id := "a", side := some "left", createdAt := some 0, updatedAt := some 0 }

/-- The provider's response when the user declines the prompt. -/
def c9DenyResp : TokenResponse :=
  { error := some "access_denied", error_description := none, access_token := none }

/-- The provider's response when the user grants access. -/
def c9GrantResp : TokenResponse :=
  { error := none, error_description := none, access_token := some "tok" }

/-- An incoming record whose id is empty, for the skip theorems. -/
def c10Falsy : EventRecord :=
  { baseRec with createdAt := some 3, updatedAt := some 3 }

/-- An envelope holding only the falsy-id record. -/
def c10Payload : ExportPayload :=
  { schemaVersion := 1, exportedAt := 0, options := ⟨.all, none, none⟩, events := some [c10Falsy] }

/-- An incoming record is settled in a store when re-processing it can
change nothing: its id is falsy, or the stored record with its id already
wins the last-writer-wins comparison. -/
def Settled (s : Store) (r : EventRecord) : Prop :=
  r.id = "" ∨ ∃ e, getEvent s r.id = some e ∧ incomingWins r e = false

/-! ## Store lemmas -/

theorem getEvent_some_id {s : Store} {i : String} {e : EventRecord}
    (h : getEvent s i = some e) : e.id = i := by
  have := List.find?_some h
  exact eq_of_beq this

theorem getEvent_add_self {s : Store} {r : EventRecord}
    (h : getEvent s r.id = none) : getEvent (addEvent s r) r.id = some r := by
  unfold getEvent addEvent
  rw [List.find?_append]
  unfold getEvent at h
  rw [h]
  simp [List.find?]

theorem getEvent_add_other {s : Store} {r : EventRecord} {i : String}
    (h : r.id ≠ i) : getEvent (addEvent s r) i = getEvent s i := by
  unfold getEvent addEvent
  rw [List.find?_append]
  have hnone : List.find? (fun e => e.id == i) [r] = none := by
    simp only [List.find?_cons, List.find?_nil, beq_false_of_ne h]
  rw [hnone]
  cases List.find? (fun e => e.id == i) s <;> simp

theorem find?_map_replace (s : Store) (r : EventRecord) :
    (s.map (fun e => if e.id == r.id then r else e)).find? (fun e => e.id == r.id)
      = if s.any (fun e => e.id == r.id) then some r else none := by
  induction s with
  | nil => rfl
  | cons a t ih =>
      by_cases h : a.id = r.id
      · have hb : (a.id == r.id) = true := beq_iff_eq.mpr h
        simp only [List.map_cons, List.find?_cons, List.any_cons, hb, if_true,
          Bool.true_or, beq_self_eq_true]
      · have hb : (a.id == r.id) = false := beq_false_of_ne h
        simp only [List.map_cons, List.find?_cons, List.any_cons, hb,
          Bool.false_eq_true, if_false, Bool.false_or, ih]

theorem find?_map_replace_other (s : Store) (r : EventRecord) (i : String)
    (hne : r.id ≠ i) :
    (s.map (fun e => if e.id == r.id then r else e)).find? (fun e => e.id == i)
      = s.find? (fun e => e.id == i) := by
  induction s with
  | nil => rfl
  | cons a t ih =>
      by_cases h : a.id = r.id
      · have hai : (a.id == i) = false := by
          rw [h]; exact beq_false_of_ne hne
        have hri : (r.id == i) = false := beq_false_of_ne hne
        have hb : (a.id == r.id) = true := beq_iff_eq.mpr h
        simp only [List.map_cons, List.find?_cons, hb, if_true, hai, hri, ih]
      · have hb : (a.id == r.id) = false := beq_false_of_ne h
        simp only [List.map_cons, List.find?_cons, hb, Bool.false_eq_true,
          if_false, ih]

theorem getEvent_mem_pred {s : Store} {i : String} {e : EventRecord}
    (h : getEvent s i = some e) : e ∈ s ∧ (e.id == i) = true := by
  unfold getEvent at h
  have h1 := List.find?_some h
  have h2 := List.mem_of_find?_eq_some h
  exact ⟨h2, h1⟩

theorem getEvent_put_self {s : Store} {r e : EventRecord}
    (h : getEvent s r.id = some e) : getEvent (putEvent s r) r.id = some r := by
  obtain ⟨hmem, hpred⟩ := getEvent_mem_pred h
  unfold putEvent getEvent
  have hany : s.any (fun x => x.id == r.id) = true :=
    List.any_eq_true.mpr ⟨e, hmem, hpred⟩
  rw [if_pos hany, find?_map_replace, hany]
  simp

theorem getEvent_put_other {s : Store} {r : EventRecord} {i : String}
    (h : r.id ≠ i) : getEvent (putEvent s r) i = getEvent s i := by
  unfold putEvent getEvent
  by_cases hany : s.any (fun x => x.id == r.id)
  · rw [if_pos hany, find?_map_replace_other s r i h]
  · rw [if_neg hany, List.find?_append]
    have hnone : List.find? (fun e => e.id == i) [r] = none := by
      simp only [List.find?_cons, List.find?_nil, beq_false_of_ne h]
    rw [hnone]
    cases List.find? (fun e => e.id == i) s <;> simp

/-! ## C1 -/

/-- C1 (amended): a restore/import payload missing an `events` array fails
with the format error and leaves the store unchanged (the failure carries
no new store).  The schema-version half of the original claim is refuted
by `c1_counterexample`: `importEventsFromJson` never inspects
`schemaVersion`. -/
theorem c1_import_missing_events_fails (now : Int) (p : ExportPayload) (s : Store)
    (h : p.events = none) :
    importEventsFromJson now p s = .error .invalidFormat := by
  unfold importEventsFromJson
  rw [h]

/-- C1 counterexample: a payload whose `schemaVersion` is `2` but whose
`events` array is valid is imported successfully, not rejected with a
format error. -/
theorem c1_counterexample :
    c1Payload.schemaVersion = 2
      ∧ importEventsFromJson 0 c1Payload [] = .ok ([], 0)
      ∧ importEventsFromJson 0 c1Payload [] ≠ .error .invalidFormat := by
  refine ⟨rfl, rfl, ?_⟩
  decide

/-- C1 witness: the amended theorem applied to a concrete events-less
payload. -/
theorem c1_witness :
    c1NoEvents.events = none
      ∧ importEventsFromJson 0 c1NoEvents [] = .error .invalidFormat :=
  ⟨rfl, c1_import_missing_events_fails 0 c1NoEvents [] rfl⟩

/-! ## C6 -/

/-- C6: `updateEvent` on an id that is not in the store fails with
`NotFound`; the failure carries no store, so nothing is persisted and no
record is created. -/
theorem c6_update_missing_not_found (now : Int) (s : Store) (id : String)
    (v : UpdatePatch) (h : getEvent s id = none) :
    updateEvent now s id v = .error .notFound := by
  unfold updateEvent
  rw [h]

/-- C6 witness: updating a missing id in the empty store. -/
theorem c6_witness :
    getEvent ([] : Store) "x" = none
      ∧ updateEvent 0 [] "x" emptyPatch = .error .notFound :=
  ⟨rfl, c6_update_missing_not_found 0 [] "x" emptyPatch rfl⟩

/-! ## C10 -/

/-- C10: an import-batch entry whose id is falsy (absent or empty) is
silently skipped: the import still succeeds, and its result — both the
final store and the imported count — is exactly that of the batch without
the entry, so the skipped entry neither modifies the store nor counts,
while the rest of the batch is still processed. -/
theorem c10_falsy_id_skipped (now : Int) (s : Store) (p : ExportPayload)
    (pre post : List EventRecord) (r : EventRecord)
    (hid : r.id = "") (hev : p.events = some (pre ++ r :: post)) :
    importEventsFromJson now p s
        = importEventsFromJson now { p with events := some (pre ++ post) } s
      ∧ importEventsFromJson now p s = .ok (importList now s (pre ++ post)) := by
  have hstep : ∀ acc, importStep now acc r = acc := by
    intro acc
    unfold importStep
    rw [hid]
    simp
  have hfold : importList now s (pre ++ r :: post) = importList now s (pre ++ post) := by
    unfold importList
    rw [List.foldl_append, List.foldl_append, List.foldl_cons, hstep]
  constructor
  · unfold importEventsFromJson
    rw [hev]
    simp only
    rw [hfold]
  · unfold importEventsFromJson
    rw [hev]
    simp only
    rw [hfold]

/-- C10 witness: an envelope whose only entry has an empty id imports
nothing, errors nowhere, and equals the import of the empty batch. -/
theorem c10_witness :
    c10Falsy.id = "" ∧ c10Payload.events = some ([] ++ c10Falsy :: [])
      ∧ importEventsFromJson 0 c10Payload []
          = importEventsFromJson 0 { c10Payload with events := some ([] ++ []) } []
      ∧ importEventsFromJson 0 c10Payload [] = .ok (importList 0 [] ([] ++ [])) :=
  ⟨rfl, rfl,
    (c10_falsy_id_skipped 0 [] c10Payload [] [] c10Falsy rfl rfl).1,
    (c10_falsy_id_skipped 0 [] c10Payload [] [] c10Falsy rfl rfl).2⟩

/-! ## C9 -/

/-- C9: when the user denies the prompt, the session layer fails with
`AccessDenied` and caches nothing, and a subsequent `ensureAccessToken`
still runs the full handshake (it is literally `requestAccessToken` from
the empty cache, and succeeds whenever the next response grants a token). -/
theorem c9_denied_then_retry (resp : TokenResponse)
    (h : resp.error = some "access_denied") :
    ensureAccessToken resp none = (.error .accessDenied, none)
      ∧ (∀ resp2, ensureAccessToken resp2 none = requestAccessToken resp2 none)
      ∧ (∀ resp2 t, resp2.error = none → resp2.access_token = some t → t ≠ "" →
          ensureAccessToken resp2 none = (.ok t, some t)) := by
  refine ⟨?_, ?_, ?_⟩
  · unfold ensureAccessToken requestAccessToken
    rw [h]
    simp [strTruthy]
  · intro resp2
    unfold ensureAccessToken
    simp [strTruthy]
  · intro resp2 t he ht hne
    unfold ensureAccessToken requestAccessToken
    rw [he, ht]
    simp [strTruthy, hne]

/-- C9 witness: the denial response, followed by a granting response. -/
theorem c9_witness :
    c9DenyResp.error = some "access_denied"
      ∧ ensureAccessToken c9DenyResp none = (.error .accessDenied, none)
      ∧ ensureAccessToken c9GrantResp none = requestAccessToken c9GrantResp none
      ∧ ensureAccessToken c9GrantResp none = (.ok "tok", some "tok") :=
  ⟨rfl,
    (c9_denied_then_retry c9DenyResp rfl).1,
    (c9_denied_then_retry c9DenyResp rfl).2.1 c9GrantResp,
    (c9_denied_then_retry c9DenyResp rfl).2.2 c9GrantResp "tok" rfl rfl (by decide)⟩

/-! ## C8 -/

theorem strTruthy_some_getD {o : Option String} (h : strTruthy o = true) :
    o = some (o.getD "") := by
  cases o with
  | none => simp [strTruthy] at h
  | some s => rfl

theorem freshId_ne_empty (d : DriveState) : freshId d ≠ "" := by
  unfold freshId
  intro h
  have hlen := congrArg String.length h
  rw [String.length_append] at hlen
  have h6 : ("drive-" : String).length = 6 := rfl
  have h0 : ("" : String).length = 0 := rfl
  rw [h6, h0] at hlen
  omega

theorem ensureFolder_cached {st : SyncState}
    (h : strTruthy st.meta.driveFolderId = true) :
    ensureFolder st = (st.meta.driveFolderId.getD "", st, 0) := by
  unfold ensureFolder
  rw [if_pos h]

theorem ensureFolder_search {st : SyncState} {f : DriveFile}
    (h : strTruthy st.meta.driveFolderId = false)
    (hq : (folderQuery st.drive).head? = some f) :
    ensureFolder st
      = (f.id, { st with meta := { st.meta with driveFolderId := some f.id } }, 0) := by
  have hc : ¬ strTruthy st.meta.driveFolderId = true := by simp [h]
  unfold ensureFolder
  rw [if_neg hc, hq]

theorem ensureFolder_create {st : SyncState}
    (h : strTruthy st.meta.driveFolderId = false)
    (hq : (folderQuery st.drive).head? = none) :
    ensureFolder st
      = (freshId st.drive,
         { st with meta := { st.meta with driveFolderId := some (freshId st.drive) },
                   drive := (createFolderRemote st.drive).2 }, 1) := by
  have hc : ¬ strTruthy st.meta.driveFolderId = true := by simp [h]
  unfold ensureFolder
  rw [if_neg hc, hq]
  rfl

/-- C8: `ensureFolder` run twice in sequence returns the same container id
both times, the second run issues no creation call, and the two runs issue
at most one creation call in total — the second run is answered by the
cached metadata id or by the unchanged search-by-name result. -/
theorem c8_ensure_folder_idem (st : SyncState) :
    (ensureFolder (ensureFolder st).2.1).1 = (ensureFolder st).1
      ∧ (ensureFolder (ensureFolder st).2.1).2.2 = 0
      ∧ (ensureFolder st).2.2 + (ensureFolder (ensureFolder st).2.1).2.2 ≤ 1 := by
  by_cases hc : strTruthy st.meta.driveFolderId = true
  · have h1 := ensureFolder_cached hc
    simp [h1]
  · have hcf : strTruthy st.meta.driveFolderId = false := by
      simpa using hc
    cases hq : (folderQuery st.drive).head? with
    | some f =>
        have h1 := ensureFolder_search hcf hq
        by_cases hf : f.id = ""
        · have hnt : strTruthy ({ st with
              meta := { st.meta with driveFolderId := some f.id } }).meta.driveFolderId
                = false := by
            simp [strTruthy, hf]
          have hq2 : (folderQuery ({ st with
              meta := { st.meta with driveFolderId := some f.id } }).drive).head? = some f := hq
          have h2 := ensureFolder_search hnt hq2
          simp [h1, h2]
        · have hnt : strTruthy ({ st with
              meta := { st.meta with driveFolderId := some f.id } }).meta.driveFolderId
                = true := by
            simp [strTruthy, hf]
          have h2 := ensureFolder_cached hnt
          simp [h1, h2]
    | none =>
        have h1 := ensureFolder_create hcf hq
        have hnt : strTruthy ({ st with
            meta := { st.meta with driveFolderId := some (freshId st.drive) },
            drive := (createFolderRemote st.drive).2 }).meta.driveFolderId = true := by
          simp [strTruthy, freshId_ne_empty st.drive]
        have h2 := ensureFolder_cached hnt
        simp [h1, h2]

/-! ## C4 -/

theorem ensureFolder_frame (st : SyncState) :
    (ensureFolder st).2.1.events = st.events
      ∧ (ensureFolder st).2.1.meta.driveFileId = st.meta.driveFileId
      ∧ (ensureFolder st).2.1.meta.lastBackupAt = st.meta.lastBackupAt
      ∧ (ensureFolder st).2.1.meta.lastRestoreAt = st.meta.lastRestoreAt := by
  unfold ensureFolder
  by_cases hc : strTruthy st.meta.driveFolderId
  · rw [if_pos hc]
    exact ⟨rfl, rfl, rfl, rfl⟩
  · rw [if_neg hc]
    cases hq : (folderQuery st.drive).head? with
    | some f => exact ⟨rfl, rfl, rfl, rfl⟩
    | none => exact ⟨rfl, rfl, rfl, rfl⟩

theorem ensureFile_frame (now : Int) (folderId : String) (st : SyncState) :
    (ensureFile now folderId st).2.events = st.events
      ∧ (ensureFile now folderId st).2.meta.lastBackupAt = st.meta.lastBackupAt
      ∧ (ensureFile now folderId st).2.meta.lastRestoreAt = st.meta.lastRestoreAt
      ∧ (ensureFile now folderId st).2.meta.driveFileId
          = some (ensureFile now folderId st).1 := by
  unfold ensureFile
  by_cases hc : strTruthy st.meta.driveFileId
  · rw [if_pos hc]
    exact ⟨rfl, rfl, rfl, strTruthy_some_getD hc⟩
  · rw [if_neg hc]
    cases hq : (fileQuery st.drive folderId).head? with
    | some f => exact ⟨rfl, rfl, rfl, rfl⟩
    | none => exact ⟨rfl, rfl, rfl, rfl⟩

theorem ensureFileInFolder_frame {fileId folderId : String} {st st3 : SyncState}
    (h : ensureFileInFolder fileId folderId st = .ok st3) :
    st3.events = st.events ∧ st3.meta = st.meta := by
  unfold ensureFileInFolder at h
  split at h
  · exact Except.noConfusion h
  · split at h
    · injection h with h'
      rw [← h']
      exact ⟨rfl, rfl⟩
    · injection h with h'
      rw [← h']
      exact ⟨rfl, rfl⟩

/-- C4 (amended): every successful `restoreFromDrive` call fetches the
(ensured, cached) remote document, merges its events batch into the local
store with the import merge, returns that import count, and stamps only
`lastRestoreAt = now` — `lastBackupAt` is left exactly as it was, contrary
to the original claim (see `c4_counterexample`). -/
theorem c4_restore_effects (now : Int) (st st' : SyncState) (n : Nat)
    (h : restoreFromDrive now st = .ok (st', n)) :
    st'.meta.lastRestoreAt = some now
      ∧ st'.meta.lastBackupAt = st.meta.lastBackupAt
      ∧ ∃ fid f payload evs,
          st'.meta.driveFileId = some fid
          ∧ findFile st'.drive fid = some f
          ∧ f.content = some payload
          ∧ payload.events = some evs
          ∧ importList now st.events evs = (st'.events, n) := by
  unfold restoreFromDrive at h
  rcases hEF : ensureFolder st with ⟨folderId, st1, c⟩
  simp only [hEF] at h
  rcases hEF2 : ensureFile now folderId st1 with ⟨fileId, st2⟩
  simp only [hEF2] at h
  have hFolderFrame := ensureFolder_frame st
  rw [hEF] at hFolderFrame
  have hFileFrame := ensureFile_frame now folderId st1
  rw [hEF2] at hFileFrame
  cases hEIF : ensureFileInFolder fileId folderId st2 with
  | error e =>
      simp only [hEIF] at h
      exact Except.noConfusion h
  | ok st3 =>
      simp only [hEIF] at h
      have hInFrame := ensureFileInFolder_frame hEIF
      cases hFF : findFile st3.drive fileId with
      | none =>
          simp only [hFF] at h
          exact Except.noConfusion h
      | some f =>
          simp only [hFF] at h
          cases hC : f.content with
          | none =>
              simp only [hC] at h
              exact Except.noConfusion h
          | some payload =>
              simp only [hC] at h
              cases hPE : payload.events with
              | none =>
                  rw [show importEventsFromJson now payload st3.events
                      = .error .invalidFormat from by
                    unfold importEventsFromJson
                    rw [hPE]] at h
                  exact Except.noConfusion h
              | some evs0 =>
                  rw [show importEventsFromJson now payload st3.events
                      = .ok (importList now st3.events evs0) from by
                    unfold importEventsFromJson
                    rw [hPE]] at h
                  rcases hIL : importList now st3.events evs0 with ⟨evs, n2⟩
                  simp only [hIL] at h
                  injection h with h'
                  injection h' with hst hn
                  have hEvents : st3.events = st.events := by
                    rw [hInFrame.1, hFileFrame.1, hFolderFrame.1]
                  refine ⟨?_, ?_, fileId, f, payload, evs0, ?_, ?_, hC, hPE, ?_⟩
                  · rw [← hst]
                  · rw [← hst]
                    show st3.meta.lastBackupAt = st.meta.lastBackupAt
                    rw [hInFrame.2, hFileFrame.2.1, hFolderFrame.2.2.1]
                  · rw [← hst]
                    show st3.meta.driveFileId = some fileId
                    rw [hInFrame.2, hFileFrame.2.2.2]
                  · rw [← hst]
                    exact hFF
                  · rw [← hst, ← hn, ← hEvents]
                    exact hIL

/-- C4 counterexample: a successful restore (cached ids, well-parented
document holding a valid envelope) stamps `lastRestoreAt` but leaves
`lastBackupAt` unset, refuting the claim that both are stamped to now. -/
theorem c4_counterexample :
    (restoreFromDrive 7 c4State).map
        (fun x => (x.1.meta.lastBackupAt, x.1.meta.lastRestoreAt, x.2))
      = .ok (none, some 7, 0)
      ∧ (none : Option Int) ≠ some 7 := by
  refine ⟨rfl, ?_⟩
  decide

/-- C4 witness: the amended theorem applied to the concrete state. -/
theorem c4_witness :
    restoreFromDrive 7 c4State = .ok (c4StateAfter, 0)
      ∧ (c4StateAfter.meta.lastRestoreAt = some 7
          ∧ c4StateAfter.meta.lastBackupAt = c4State.meta.lastBackupAt
          ∧ ∃ fid f payload evs,
              c4StateAfter.meta.driveFileId = some fid
              ∧ findFile c4StateAfter.drive fid = some f
              ∧ f.content = some payload
              ∧ payload.events = some evs
              ∧ importList 7 c4State.events evs = (c4StateAfter.events, 0)) :=
  ⟨rfl, c4_restore_effects 7 c4State c4StateAfter 0 rfl⟩

/-! ## C5 -/

theorem keyOk_iff (fk ek : Option String) :
    keyOk fk ek = true ↔ (∀ k, fk = some k → k ≠ "" → ek = some k) := by
  cases fk with
  | none => simp [keyOk, strTruthy]
  | some k =>
      by_cases hk : k = ""
      · subst hk
        simp [keyOk, strTruthy]
      · have ht : strTruthy (some k) = true := by simp [strTruthy, hk]
        unfold keyOk
        rw [ht]
        simp only [if_true, beq_iff_eq]
        constructor
        · intro h k' heq hne
          injection heq with heq'
          rw [← heq']
          exact h
        · intro h
          exact h k rfl hk

theorem daysOk_iff (now : Int) (e : EventRecord) (o : Option Int) :
    daysOk now e o = true
      ↔ (∀ d, o = some d → 0 < d → now - d * DAY_MS ≤ e.startAt) := by
  cases o with
  | none => simp [daysOk]
  | some d =>
      by_cases hd : 0 < d
      · simp only [daysOk]
        rw [if_pos hd]
        simp only [decide_eq_true_eq]
        constructor
        · intro h d' heq _
          injection heq with heq'
          rw [← heq']
          exact h
        · intro h
          exact h d rfl hd
      · simp only [daysOk]
        rw [if_neg hd]
        constructor
        · intro _ d' heq hd'
          injection heq with heq'
          rw [← heq'] at hd'
          exact absurd hd' hd
        · intro _
          rfl

theorem matchesFilter_iff (now : Int) (e : EventRecord) (f : EventFilter) :
    matchesFilter now e f = true ↔
      (f.minPain.getD 0 ≤ e.pain
        ∧ (∀ d, f.days = some d → 0 < d → now - d * DAY_MS ≤ e.startAt)
        ∧ (∀ k, f.regionKey = some k → k ≠ "" → e.regionKey = some k)
        ∧ (∀ k, f.jointKey = some k → k ≠ "" → e.jointKey = some k)) := by
  unfold matchesFilter
  simp only [Bool.and_eq_true, decide_eq_true_eq, daysOk_iff, keyOk_iff]
  constructor
  · rintro ⟨⟨⟨h1, h2⟩, h3⟩, h4⟩
    exact ⟨h1, h2, h3, h4⟩
  · rintro ⟨h1, h2, h3, h4⟩
    exact ⟨⟨⟨h1, h2⟩, h3⟩, h4⟩

theorem mergeSort_desc_sorted (l : List EventRecord) :
    (l.mergeSort descCmp).Pairwise (fun a b => b.startAt ≤ a.startAt) := by
  have h := @List.sorted_mergeSort EventRecord descCmp
    (fun a b c hab hbc => by
      simp only [descCmp, decide_eq_true_eq] at hab hbc ⊢
      omega)
    (fun a b => by
      simp only [descCmp, Bool.or_eq_true, decide_eq_true_eq]
      omega)
    l
  exact h.imp (fun hab => by
    simp only [descCmp, decide_eq_true_eq] at hab
    exact hab)

theorem mergeSort_asc_sorted (l : List EventRecord) :
    (l.mergeSort ascCmp).Pairwise (fun a b => a.startAt ≤ b.startAt) := by
  have h := @List.sorted_mergeSort EventRecord ascCmp
    (fun a b c hab hbc => by
      simp only [ascCmp, decide_eq_true_eq] at hab hbc ⊢
      omega)
    (fun a b => by
      simp only [ascCmp, Bool.or_eq_true, decide_eq_true_eq]
      omega)
    l
  exact h.imp (fun hab => by
    simp only [ascCmp, decide_eq_true_eq] at hab
    exact hab)

/-- C5: `listEvents` returns exactly the stored records passing the
conjunction of the pain threshold (inclusive), the trailing-days window
(only when `days > 0`; `0`/absent/empty-key filters impose nothing), and
the truthy `regionKey`/`jointKey` equality matches, sorted by `startAt`
descending; `filterByExportOptions` sorts its result by `startAt`
ascending. -/
theorem c5_list_filter_sort (now : Int) (s : Store) (f : EventFilter)
    (opts : ExportOptions) :
    (∀ e, e ∈ listEvents now s f ↔
        (e ∈ s ∧ f.minPain.getD 0 ≤ e.pain
          ∧ (∀ d, f.days = some d → 0 < d → now - d * DAY_MS ≤ e.startAt)
          ∧ (∀ k, f.regionKey = some k → k ≠ "" → e.regionKey = some k)
          ∧ (∀ k, f.jointKey = some k → k ≠ "" → e.jointKey = some k)))
      ∧ (listEvents now s f).Pairwise (fun a b => b.startAt ≤ a.startAt)
      ∧ (filterByExportOptions now s opts).Pairwise (fun a b => a.startAt ≤ b.startAt) := by
  refine ⟨?_, ?_, ?_⟩
  · intro e
    unfold listEvents
    rw [(List.mergeSort_perm _ descCmp).mem_iff, List.mem_filter, matchesFilter_iff]
  · exact mergeSort_desc_sorted _
  · exact mergeSort_asc_sorted _

/-! ## C7 -/

/-- C7 (amended): `updateEvent` on an existing record persists and returns
a record in which every field not present in the patch keeps the stored
value verbatim and `updatedAt` is freshly stamped — with one exception the
original claim misses: when `side` is absent from the patch, it is
re-normalized to `current.side ?? ''`, so a stored record whose `side` is
absent comes back with `side = ''` instead of an absent `side`
(see `c7_counterexample`). -/
theorem c7_update_shallow_merge (now : Int) (s : Store) (id : String)
    (v : UpdatePatch) (current : EventRecord)
    (h : getEvent s id = some current) :
    ∃ s' u, updateEvent now s id v = .ok (s', u)
      ∧ getEvent s' id = some u
      ∧ u.id = current.id
      ∧ u.createdAt = current.createdAt
      ∧ u.updatedAt = some now
      ∧ (v.startAt = none → u.startAt = current.startAt)
      ∧ (v.endAt = none → u.endAt = current.endAt)
      ∧ (v.pain = none → u.pain = current.pain)
      ∧ (v.region = none → u.region = current.region)
      ∧ (v.regionKey = none → u.regionKey = current.regionKey)
      ∧ (v.jointKey = none → u.jointKey = current.jointKey)
      ∧ (v.symptomKey = none → u.symptomKey = current.symptomKey)
      ∧ (v.symptomCustom = none → u.symptomCustom = current.symptomCustom)
      ∧ (v.triggerKey = none → u.triggerKey = current.triggerKey)
      ∧ (v.triggerCustom = none → u.triggerCustom = current.triggerCustom)
      ∧ (v.actionKey = none → u.actionKey = current.actionKey)
      ∧ (v.actionCustom = none → u.actionCustom = current.actionCustom)
      ∧ (v.drill1Key = none → u.drill1Key = current.drill1Key)
      ∧ (v.drill1Custom = none → u.drill1Custom = current.drill1Custom)
      ∧ (v.drill2Key = none → u.drill2Key = current.drill2Key)
      ∧ (v.drill2Custom = none → u.drill2Custom = current.drill2Custom)
      ∧ (v.notes = none → u.notes = current.notes)
      ∧ (v.side = none → u.side = some (current.side.getD "")) := by
  have hid : current.id = id := getEvent_some_id h
  have hgid : (applyPatch now current v).id = id := hid
  have hg : getEvent s (applyPatch now current v).id = some current := by
    rw [hgid]
    exact h
  have hput := getEvent_put_self hg
  rw [hgid] at hput
  refine ⟨putEvent s (applyPatch now current v), applyPatch now current v,
    ?_, hput, rfl, rfl, rfl,
    (fun hv => by simp [applyPatch, hv]),
    (fun hv => by simp [applyPatch, hv]),
    (fun hv => by simp [applyPatch, hv]),
    (fun hv => by simp [applyPatch, hv]),
    (fun hv => by simp [applyPatch, hv]),
    (fun hv => by simp [applyPatch, hv]),
    (fun hv => by simp [applyPatch, hv]),
    (fun hv => by simp [applyPatch, hv]),
    (fun hv => by simp [applyPatch, hv]),
    (fun hv => by simp [applyPatch, hv]),
    (fun hv => by simp [applyPatch, hv]),
    (fun hv => by simp [applyPatch, hv]),
    (fun hv => by simp [applyPatch, hv]),
    (fun hv => by simp [applyPatch, hv]),
    (fun hv => by simp [applyPatch, hv]),
    (fun hv => by simp [applyPatch, hv]),
    (fun hv => by simp [applyPatch, hv]),
    (fun hv => by simp [applyPatch, hv])⟩
  unfold updateEvent
  rw [h]

/-- C7 counterexample: a stored record whose `side` is absent (insertable
verbatim through the import path) is updated with an empty patch; the
persisted record's `side` changes from absent to `''`, so the untouched
field is not preserved verbatim. -/
theorem c7_counterexample :
    importEventsFromJson 0 c7Payload [] = .ok ([c7Rec], 1)
      ∧ c7Rec.side = none
      ∧ emptyPatch.side = none
      ∧ (updateEvent 5 [c7Rec] "a" emptyPatch).map (fun x => x.2.side)
          = .ok (some "")
      ∧ (some "" : Option String) ≠ none := by
  refine ⟨rfl, rfl, rfl, rfl, ?_⟩
  decide

/-- C7 witness: the amended theorem applied to a record whose `side` is
present. -/
theorem c7_witness :
    ∃ s' u, updateEvent 5 [c7SideRec] "a" emptyPatch = .ok (s', u)
      ∧ getEvent s' "a" = some u := by
  obtain ⟨s', u, h1, h2, hrest⟩ :=
    c7_update_shallow_merge 5 [c7SideRec] "a" emptyPatch c7SideRec rfl
  exact ⟨s', u, h1, h2⟩

/-! ## C2 -/

/-- C2 (amended): for a singleton batch `[r]` against a store holding `e`
with the same id and `e.updatedAt = T1`, when the incoming timestamp
`tsOf r` (that is, `r.updatedAt` falling back to `r.createdAt` then to
zero) is strictly greater than `T1`, the stored record is overwritten by
the shallow merge of `r` over `e` — every field present in `r` takes
`r`'s value, every optional field absent in `r` keeps `e`'s value, and
`updatedAt` is stamped to the incoming `updatedAt`, or to now when it is
absent — and `r` counts as imported; otherwise the store is untouched and
nothing is counted.  The original claim's statement that the post-merge
record equals `r` outright fails on absent optional fields, see
`c2_counterexample`. -/
theorem c2_lww_merge (now : Int) (s : Store) (p : ExportPayload)
    (r e : EventRecord) (t1 : Int)
    (hev : p.events = some [r]) (hid : r.id ≠ "")
    (hfound : getEvent s r.id = some e) (ht1 : e.updatedAt = some t1) :
    (tsOf r > t1 →
        ∃ m, importEventsFromJson now p s = .ok (putEvent s m, 1)
          ∧ getEvent (putEvent s m) r.id = some m
          ∧ m.id = r.id ∧ m.startAt = r.startAt ∧ m.pain = r.pain
          ∧ m.region = r.region ∧ m.notes = r.notes
          ∧ m.endAt = (r.endAt <|> e.endAt)
          ∧ m.regionKey = (r.regionKey <|> e.regionKey)
          ∧ m.jointKey = (r.jointKey <|> e.jointKey)
          ∧ m.symptomKey = (r.symptomKey <|> e.symptomKey)
          ∧ m.symptomCustom = (r.symptomCustom <|> e.symptomCustom)
          ∧ m.triggerKey = (r.triggerKey <|> e.triggerKey)
          ∧ m.triggerCustom = (r.triggerCustom <|> e.triggerCustom)
          ∧ m.actionKey = (r.actionKey <|> e.actionKey)
          ∧ m.actionCustom = (r.actionCustom <|> e.actionCustom)
          ∧ m.side = (r.side <|> e.side)
          ∧ m.drill1Key = (r.drill1Key <|> e.drill1Key)
          ∧ m.drill1Custom = (r.drill1Custom <|> e.drill1Custom)
          ∧ m.drill2Key = (r.drill2Key <|> e.drill2Key)
          ∧ m.drill2Custom = (r.drill2Custom <|> e.drill2Custom)
          ∧ m.createdAt = (r.createdAt <|> e.createdAt)
          ∧ m.updatedAt = some (r.updatedAt.getD now))
      ∧ (¬ tsOf r > t1 → importEventsFromJson now p s = .ok (s, 0)) := by
  have hbeq : (r.id == "") = false := beq_false_of_ne hid
  constructor
  · intro hwin
    have hw : incomingWins r e = true := by
      unfold incomingWins
      rw [ht1]
      exact decide_eq_true hwin
    have hstep : importStep now (s, 0) r = (putEvent s (mergeRecords now e r), 1) := by
      unfold importStep
      rw [hbeq]
      simp only [Bool.false_eq_true, if_false, hfound, hw, if_true]
    have hok : importEventsFromJson now p s
        = .ok (putEvent s (mergeRecords now e r), 1) := by
      unfold importEventsFromJson importList
      rw [hev]
      simp only [List.foldl_cons, List.foldl_nil, hstep]
    have hg : getEvent s (mergeRecords now e r).id = some e := hfound
    have hput := getEvent_put_self hg
    exact ⟨mergeRecords now e r, hok, hput, rfl, rfl, rfl, rfl, rfl, rfl, rfl,
      rfl, rfl, rfl, rfl, rfl, rfl, rfl, rfl, rfl, rfl, rfl, rfl, rfl, rfl⟩
  · intro hlose
    have hw : incomingWins r e = false := by
      unfold incomingWins
      rw [ht1]
      exact decide_eq_false hlose
    have hstep : importStep now (s, 0) r = (s, 0) := by
      unfold importStep
      rw [hbeq]
      simp only [Bool.false_eq_true, if_false, hfound, hw]
    unfold importEventsFromJson importList
    rw [hev]
    simp only [List.foldl_cons, List.foldl_nil, hstep]

/-- C2 counterexample: an incoming record with a strictly newer
`updatedAt` but no `regionKey` wins the merge, yet the post-merge record
keeps the stored `regionKey` — it does not equal the incoming record even
after stamping `updatedAt`. -/
theorem c2_counterexample :
    tsOf c2Incoming = 10
      ∧ c2Existing.updatedAt = some 0
      ∧ (importEventsFromJson 50 c2Payload [c2Existing]).map (fun x => getEvent x.1 "a")
          = .ok (some { c2Incoming with regionKey := some "hand" })
      ∧ ({ c2Incoming with regionKey := some "hand" } : EventRecord) ≠ c2Incoming
      ∧ ({ c2Incoming with regionKey := some "hand" } : EventRecord)
          ≠ { c2Incoming with updatedAt := some 10 } := by
  refine ⟨rfl, rfl, rfl, ?_, ?_⟩
  · decide
  · decide

/-- C2 witness: the amended theorem applied to the concrete pair of
records. -/
theorem c2_witness :
    ∃ m, importEventsFromJson 50 c2Payload [c2Existing] = .ok (putEvent [c2Existing] m, 1)
      ∧ getEvent (putEvent [c2Existing] m) "a" = some m := by
  obtain ⟨m, h1, h2, hrest⟩ :=
    (c2_lww_merge 50 [c2Existing] c2Payload c2Incoming c2Existing 0
      rfl (by decide) rfl rfl).1 (by decide)
  exact ⟨m, h1, h2⟩

/-! ## C3 -/

theorem importStep_skip_id {now : Int} {acc : Store × Nat} {r : EventRecord}
    (hid : r.id = "") : importStep now acc r = acc := by
  simp [importStep, hid]

theorem importStep_insert {now : Int} {acc : Store × Nat} {r : EventRecord}
    (hid : r.id ≠ "") (hg : getEvent acc.1 r.id = none) :
    importStep now acc r = (addEvent acc.1 r, acc.2 + 1) := by
  simp [importStep, beq_false_of_ne hid, hg]

theorem importStep_merge {now : Int} {acc : Store × Nat} {r e : EventRecord}
    (hid : r.id ≠ "") (hg : getEvent acc.1 r.id = some e)
    (hw : incomingWins r e = true) :
    importStep now acc r = (putEvent acc.1 (mergeRecords now e r), acc.2 + 1) := by
  simp [importStep, beq_false_of_ne hid, hg, hw]

theorem importStep_stale {now : Int} {acc : Store × Nat} {r e : EventRecord}
    (hid : r.id ≠ "") (hg : getEvent acc.1 r.id = some e)
    (hw : incomingWins r e = false) :
    importStep now acc r = acc := by
  simp [importStep, beq_false_of_ne hid, hg, hw]

theorem incomingWins_self {r : EventRecord} (h : r.updatedAt.isSome) :
    incomingWins r r = false := by
  obtain ⟨u, hu⟩ := Option.isSome_iff_exists.mp h
  simp [incomingWins, tsOf, hu]

theorem incomingWins_merge_false {now : Int} {e r : EventRecord}
    (h : r.updatedAt.isSome) :
    incomingWins r (mergeRecords now e r) = false := by
  obtain ⟨u, hu⟩ := Option.isSome_iff_exists.mp h
  simp [incomingWins, mergeRecords, tsOf, hu]

theorem step_of_settled {now : Int} {acc : Store × Nat} {r : EventRecord}
    (h : Settled acc.1 r) : importStep now acc r = acc := by
  by_cases hid : r.id = ""
  · exact importStep_skip_id hid
  · rcases h with h' | ⟨e, hg, hw⟩
    · exact absurd h' hid
    · exact importStep_stale hid hg hw

theorem foldl_settled {now : Int} {s : Store} {n : Nat} {evs : List EventRecord}
    (h : ∀ r ∈ evs, Settled s r) :
    evs.foldl (importStep now) (s, n) = (s, n) := by
  induction evs with
  | nil => rfl
  | cons a t ih =>
      rw [List.foldl_cons, step_of_settled (h a (List.mem_cons_self _ _))]
      exact ih (fun r hr => h r (List.mem_cons_of_mem _ hr))

theorem settled_after_step {now : Int} {acc : Store × Nat} {r : EventRecord}
    (h : r.updatedAt.isSome) : Settled (importStep now acc r).1 r := by
  by_cases hid : r.id = ""
  · exact Or.inl hid
  · cases hg : getEvent acc.1 r.id with
    | none =>
        rw [importStep_insert hid hg]
        exact Or.inr ⟨r, getEvent_add_self hg, incomingWins_self h⟩
    | some e =>
        by_cases hw : incomingWins r e = true
        · rw [importStep_merge hid hg hw]
          exact Or.inr ⟨mergeRecords now e r, getEvent_put_self hg,
            incomingWins_merge_false h⟩
        · have hw' : incomingWins r e = false := by simpa using hw
          rw [importStep_stale hid hg hw']
          exact Or.inr ⟨e, hg, hw'⟩

theorem settled_preserved {now : Int} {acc : Store × Nat} {r r2 : EventRecord}
    (h2 : r2.updatedAt.isSome) (h : Settled acc.1 r) :
    Settled (importStep now acc r2).1 r := by
  rcases h with hid | ⟨e, hg, hw⟩
  · exact Or.inl hid
  · by_cases hid2 : r2.id = ""
    · rw [importStep_skip_id hid2]
      exact Or.inr ⟨e, hg, hw⟩
    · by_cases heq : r2.id = r.id
      · have hg2 : getEvent acc.1 r2.id = some e := by rw [heq]; exact hg
        by_cases hw2 : incomingWins r2 e = true
        · rw [importStep_merge hid2 hg2 hw2]
          refine Or.inr ⟨mergeRecords now e r2, ?_, ?_⟩
          · have hput := getEvent_put_self (r := mergeRecords now e r2) hg2
            have hmid : (mergeRecords now e r2).id = r.id := heq
            rw [hmid] at hput
            exact hput
          · cases hu1 : e.updatedAt with
            | none =>
                have : incomingWins r2 e = false := by simp [incomingWins, hu1]
                rw [this] at hw2
                exact absurd hw2 (by simp)
            | some t1 =>
                have hrle : ¬ tsOf r > t1 := by
                  intro hgt
                  have hcontra : incomingWins r e = true := by
                    simp [incomingWins, hu1, hgt]
                  rw [hcontra] at hw
                  exact absurd hw (by simp)
                have hgt2 : tsOf r2 > t1 := by
                  have := hw2
                  simp [incomingWins, hu1] at this
                  exact this
                obtain ⟨u2, hu2⟩ := Option.isSome_iff_exists.mp h2
                have hts2 : tsOf r2 = u2 := by simp [tsOf, hu2]
                have hlt : tsOf r ≤ u2 := by omega
                simp [incomingWins, mergeRecords, hu2]
                omega
        · have hw2' : incomingWins r2 e = false := by simpa using hw2
          rw [importStep_stale hid2 hg2 hw2']
          exact Or.inr ⟨e, hg, hw⟩
      · cases hg2 : getEvent acc.1 r2.id with
        | none =>
            rw [importStep_insert hid2 hg2]
            refine Or.inr ⟨e, ?_, hw⟩
            rw [getEvent_add_other heq]
            exact hg
        | some e2 =>
            by_cases hw2 : incomingWins r2 e2 = true
            · rw [importStep_merge hid2 hg2 hw2]
              refine Or.inr ⟨e, ?_, hw⟩
              have hne : (mergeRecords now e2 r2).id ≠ r.id := heq
              rw [getEvent_put_other hne]
              exact hg
            · have hw2' : incomingWins r2 e2 = false := by simpa using hw2
              rw [importStep_stale hid2 hg2 hw2']
              exact Or.inr ⟨e, hg, hw⟩

theorem foldl_preserves_settled {now : Int} {r : EventRecord} :
    ∀ (t : List EventRecord) (acc : Store × Nat),
      (∀ x ∈ t, x.updatedAt.isSome) → Settled acc.1 r →
      Settled ((t.foldl (importStep now) acc)).1 r := by
  intro t
  induction t with
  | nil => intro acc _ h; exact h
  | cons b u ih =>
      intro acc hall h
      rw [List.foldl_cons]
      exact ih _ (fun x hx => hall x (List.mem_cons_of_mem _ hx))
        (settled_preserved (hall b (List.mem_cons_self _ _)) h)

theorem settled_after_fold {now : Int} {evs : List EventRecord}
    (hupd : ∀ r ∈ evs, r.updatedAt.isSome) :
    ∀ (acc : Store × Nat), ∀ r ∈ evs,
      Settled ((evs.foldl (importStep now) acc)).1 r := by
  induction evs with
  | nil => intro acc r hr; cases hr
  | cons a t ih =>
      intro acc r hr
      rw [List.foldl_cons]
      rcases List.mem_cons.mp hr with rfl | hrt
      · exact foldl_preserves_settled t _
          (fun x hx => hupd x (List.mem_cons_of_mem _ hx))
          (settled_after_step (hupd r hr))
      · exact ih (fun x hx => hupd x (List.mem_cons_of_mem _ hx)) _ r hrt

/-- C3 (amended): importing a well-formed envelope whose records all carry
an `updatedAt` value twice leaves the store exactly as after the first
one and reports `imported = 0` the second time.  Without that proviso
idempotence fails: a record with no `updatedAt` whose `createdAt` is ahead
of the import time re-imports on every call, see `c3_counterexample`. -/
theorem c3_import_idempotent (now1 now2 : Int) (p : ExportPayload)
    (evs : List EventRecord) (s s1 : Store) (n1 : Nat)
    (hev : p.events = some evs)
    (hupd : ∀ r ∈ evs, r.updatedAt.isSome)
    (h1 : importEventsFromJson now1 p s = .ok (s1, n1)) :
    importEventsFromJson now2 p s1 = .ok (s1, 0) := by
  unfold importEventsFromJson at h1 ⊢
  simp only [hev] at h1 ⊢
  injection h1 with h1'
  have h1f : List.foldl (importStep now1) (s, 0) evs = (s1, n1) := h1'
  have hsettled : ∀ r ∈ evs, Settled s1 r := by
    intro r hr
    have hs := @settled_after_fold now1 evs hupd (s, 0) r hr
    rw [h1f] at hs
    exact hs
  have hdone := @foldl_settled now2 s1 0 evs hsettled
  unfold importList
  rw [hdone]

/-- C3 counterexample: a well-formed singleton envelope whose record has
no `updatedAt` and a `createdAt` ahead of both import times; re-importing
it merges again — the second import reports `imported = 1` and restamps
the stored record's `updatedAt`, changing the store. -/
theorem c3_counterexample :
    importEventsFromJson 10 c3Payload [c3Existing]
        = .ok ([{ c3Incoming with updatedAt := some 10 }], 1)
      ∧ importEventsFromJson 20 c3Payload [{ c3Incoming with updatedAt := some 10 }]
          = .ok ([{ c3Incoming with updatedAt := some 20 }], 1)
      ∧ ([{ c3Incoming with updatedAt := some 20 }] : Store)
          ≠ [{ c3Incoming with updatedAt := some 10 }]
      ∧ (1 : Nat) ≠ 0 := by
  refine ⟨rfl, rfl, ?_, ?_⟩
  · decide
  · decide

/-- C3 witness: the amended theorem applied to a concrete envelope whose
record carries `updatedAt`. -/
theorem c3_witness :
    c3GoodPayload.events = some [c3GoodIncoming]
      ∧ importEventsFromJson 0 c3GoodPayload [] = .ok ([c3GoodIncoming], 1)
      ∧ importEventsFromJson 5 c3GoodPayload [c3GoodIncoming] = .ok ([c3GoodIncoming], 0) :=
  ⟨rfl, rfl,
    c3_import_idempotent 0 5 c3GoodPayload [c3GoodIncoming] [] [c3GoodIncoming] 1
      rfl (by decide) rfl⟩

end PsaCore
